import Mathlib

/-!
Verification of the Redis-backed task-queue subsystem of the dev-agent
repository (agent-service).  The definitions below are a shallow embedding of
`app/tasks/queue.py` (class `TaskQueue`), `app/tasks/executor.py`
(class `TaskExecutor`) and the producer routing in `app/core/agent.py`
(class `DevAgent`).

Modelling conventions:
* JSON-serializable Python values are the inductive `Json`; `json.dumps`
  followed by `json.loads` is the identity on this representation
  ("modulo JSON round-tripping of types").  Numeric values occurring in this
  subsystem are integers (`progress`), so `Json.num` carries an `Int`.
* A Python `dict` argument (declared `Dict[str, Any]` in the source) is a
  `TaskDict`, an association list with first-match lookup; dicts built by the
  source never carry duplicate keys.
* The Redis instance is a `RedisState`: the `agent:tasks:queue` list plus the
  string key-value store.  `LPUSH` prepends at the head of the Lean list and
  `BRPOP` pops from the tail, exactly as in Redis.
* Network effects (the `httpx` PATCH of `_update_task_status`, the Claude and
  Git API calls of the handlers) are driven by explicit outcome oracles
  (`HttpOutcome`, `CallResult`); a Python exception in flight is an
  `Except.error` carrying `str(e)`.
-/

/-- A JSON value as produced by Python's `json` module restricted to the
values this subsystem stores (numbers are integers here). -/
inductive Json where
  | null
  | bool (b : Bool)
  | num (n : Int)
  | str (s : String)
  | arr (elems : List Json)
  | obj (fields : List (String × Json))

/-- A Python dict with string keys, as an association list (first match wins;
dicts produced by the source have no duplicate keys). -/
abbrev TaskDict := List (String × Json)

/-- Python dict lookup `d[k]` / `d.get(k)` on the association-list model. -/
def alookup (l : TaskDict) (k : String) : Option Json :=
  match l with
  | [] => none
  | (k', v) :: rest => if k' = k then some v else alookup rest k

/-- Python dict assignment `d[k] = v` (replace if present, else append),
used for the Redis string store `SET`. -/
def assocSet (l : List (String × Json)) (k : String) (v : Json) :
    List (String × Json) :=
  match l with
  | [] => [(k, v)]
  | (k', v') :: rest =>
      if k' = k then (k, v) :: rest else (k', v') :: assocSet rest k v

mutual

/-- Python `repr` of a JSON value (differs from `str` only on strings;
exact for quote-free strings). -/
def pyRepr : Json → String
  | .null => "None"
  | .bool b => if b then "True" else "False"
  | .num n => toString n
  | .str s => "\x27" ++ s ++ "\x27"
  | .arr xs => "[" ++ pyReprList xs ++ "]"
  | .obj fs => "\x7b" ++ pyReprFields fs ++ "\x7d"

/-- Python `repr` of a list of JSON values (comma separated). -/
def pyReprList : List Json → String
  | [] => ""
  | [x] => pyRepr x
  | x :: rest => pyRepr x ++ ", " ++ pyReprList rest

/-- Python `repr` of the fields of a dict of JSON values. -/
def pyReprFields : List (String × Json) → String
  | [] => ""
  | [(k, v)] => "\x27" ++ k ++ "\x27: " ++ pyRepr v
  | (k, v) :: rest =>
      "\x27" ++ k ++ "\x27: " ++ pyRepr v ++ ", " ++ pyReprFields rest

end

/-- Python `str()` of a JSON value, as used by f-string interpolation of task
ids and task types.  Exact for the strings and integers that actually occur as
ids/types in this system; for containers it renders Python `repr`. -/
def pyStr : Json → String
  | .null => "None"
  | .bool b => if b then "True" else "False"
  | .num n => toString n
  | .str s => s
  | .arr xs => "[" ++ pyReprList xs ++ "]"
  | .obj fs => "\x7b" ++ pyReprFields fs ++ "\x7d"

/-- Python type name of a JSON value, as it appears in `AttributeError`
messages such as `'int' object has no attribute 'get'`. -/
def pyTypeName : Json → String
  | .null => "NoneType"
  | .bool _ => "bool"
  | .num _ => "int"
  | .str _ => "str"
  | .arr _ => "list"
  | .obj _ => "dict"

/-- `str()` of the `AttributeError` raised by calling the named missing
attribute on a value of the given type. -/
def noAttrMsg (typeName attrName : String) : String :=
  "\x27" ++ typeName ++ "\x27 object has no attribute \x27" ++ attrName ++ "\x27"

/-- `str(KeyError("params"))`: Python renders the missing key in quotes. -/
def keyErrorParams : String := "\x27params\x27"

/-- redis-py encodes `str`/`int`/`float`/`bytes` command arguments and raises
`DataError` on anything else (`None`, `bool`, `list`, `dict`), so only these
id values can be `LPUSH`ed. -/
def redisEncodable : Json → Bool
  | .str _ => true
  | .num _ => true
  | _ => false

/-- The Redis instance seen by `TaskQueue`: the `agent:tasks:queue` list
(`LPUSH` prepends at the head, `BRPOP` pops from the tail) and the string
key-value store holding the JSON-encoded task records. -/
structure RedisState where
  queue : List String
  store : List (String × Json)

/-- `TaskQueue.task_data_key_prefix` applied to a task id: the store key
`"agent:tasks:data:" + id`. -/
def taskDataKey (id : String) : String := "agent:tasks:data:" ++ id

/-- `TaskQueue.add_task`: reject an empty dict or a dict without an `"id"`
key; otherwise `SET` the JSON-encoded record under `taskDataKey id` and
`LPUSH` the id onto the queue.  Returns the `bool` result together with the
new Redis state.  (If the id value is not redis-encodable the `LPUSH` raises
`DataError` after the `SET`, the exception is caught and `False` returned.) -/
def addTask (st : RedisState) (task : TaskDict) : Bool × RedisState :=
  if task.isEmpty || (alookup task "id").isNone then
    (false, st)
  else
    let idv := (alookup task "id").getD .null
    let key := taskDataKey (pyStr idv)
    let st1 : RedisState := { st with store := assocSet st.store key (.obj task) }
    if redisEncodable idv then
      (true, { st1 with queue := pyStr idv :: st1.queue })
    else
      (false, st1)

/-- `TaskQueue.get_task`: `BRPOP` an id from the tail of the queue (`none` on
timeout, i.e. empty queue); then `GET` the record; a missing record logs a
warning and returns `none` — the popped id is not restored. -/
def getTask (st : RedisState) : Option Json × RedisState :=
  match st.queue.getLast? with
  | none => (none, st)
  | some id =>
      let st1 : RedisState := { st with queue := st.queue.dropLast }
      match alookup st1.store (taskDataKey id) with
      | none => (none, st1)
      | some data => (some data, st1)

/-- `TaskQueue.get_task_by_id`: `GET` the record for an id (no state change),
`none` when absent. -/
def getTaskById (st : RedisState) (taskId : String) : Option Json :=
  alookup st.store (taskDataKey taskId)

/-- Enqueue a list of tasks in order via `add_task`. -/
def enqueueAll (st : RedisState) (ts : List TaskDict) : RedisState :=
  ts.foldl (fun s t => (addTask s t).2) st

/-- Perform `n` consecutive `get_task` calls, collecting the results. -/
def dequeueAll : RedisState → Nat → List (Option Json) × RedisState
  | st, 0 => ([], st)
  | st, n + 1 =>
      let r := getTask st
      let rest := dequeueAll r.2 n
      (r.1 :: rest.1, rest.2)

/-- The string id under which `add_task` files a task: `str(task["id"])`. -/
def idKey (t : TaskDict) : String := pyStr ((alookup t "id").getD .null)

/-- Outcome oracle for the single external API call a handler makes (the
Claude `send_request` or the dispatched Git operation): either the returned
value, or `str(e)` of the exception the call raised. -/
inductive CallResult where
  | ok (v : Json)
  | exn (msg : String)

/-- One status report as issued through `TaskExecutor._update_task_status`
(the `result` payload is not tracked; no verified property concerns its
contents, only its presence is irrelevant to status/progress/error). -/
structure Report where
  status : String
  progress : Int
  error : Option String
deriving DecidableEq, Repr

/-- `TaskExecutor._handle_code_generation_task`: `task["params"]` is read
before the handler's `try` (a missing key or non-dict value raises out of the
handler); inside the `try` it reports `in_progress` 30, calls the Claude API,
reports `in_progress` 70 and finally `completed` 100; any exception in the
`try` body is caught and reported as `failed` 0 with `str(e)`. -/
def handleCodeGenerationTask (task : TaskDict) (env : CallResult) :
    Except String (List Report) :=
  match alookup task "params" with
  | none => .error keyErrorParams
  | some (.obj _params) =>
      .ok (match env with
        | .ok _response =>
            [⟨"in_progress", 30, none⟩, ⟨"in_progress", 70, none⟩,
             ⟨"completed", 100, none⟩]
        | .exn m =>
            [⟨"in_progress", 30, none⟩, ⟨"failed", 0, some m⟩])
  | some v => .error (noAttrMsg (pyTypeName v) "get")

/-- `TaskExecutor._handle_code_analysis_task`: same shape as code generation
with checkpoints 30 and 80. -/
def handleCodeAnalysisTask (task : TaskDict) (env : CallResult) :
    Except String (List Report) :=
  match alookup task "params" with
  | none => .error keyErrorParams
  | some (.obj _params) =>
      .ok (match env with
        | .ok _response =>
            [⟨"in_progress", 30, none⟩, ⟨"in_progress", 80, none⟩,
             ⟨"completed", 100, none⟩]
        | .exn m =>
            [⟨"in_progress", 30, none⟩, ⟨"failed", 0, some m⟩])
  | some v => .error (noAttrMsg (pyTypeName v) "get")

/-- The Git operation types dispatched by `_handle_git_operation_task`. -/
def knownGitOps : List String := ["clone", "commit", "push", "pull", "branch"]

/-- `TaskExecutor._handle_git_operation_task`: reads `task["params"]` before
its `try` (missing key / non-dict raise out of the handler) and
`params.get("operation_plan", {})`; inside the `try` it reports
`in_progress` 20, computes `operation_plan.get("operation_type", "").lower()`
(an `AttributeError` if the plan is not a dict or the type not a string),
reads `operation_plan.get("parameters", {})`, reports `in_progress` 40,
then for a known operation reads the call arguments off the parameters dict
(an `AttributeError` if not a dict) and performs the Git call, reporting
`in_progress` 80 and `completed` 100 on success; an unknown operation raises
`ValueError`; every exception inside the `try` is caught and reported as
`failed` 0 with `str(e)`. -/
def handleGitOperationTask (task : TaskDict) (env : CallResult) :
    Except String (List Report) :=
  match alookup task "params" with
  | none => .error keyErrorParams
  | some (.obj params) =>
      .ok (⟨"in_progress", 20, none⟩ ::
        match (alookup params "operation_plan").getD (.obj []) with
        | .obj plan =>
            (match (alookup plan "operation_type").getD (.str "") with
             | .str s =>
                 ⟨"in_progress", 40, none⟩ ::
                 (if s.toLower ∈ knownGitOps then
                    match (alookup plan "parameters").getD (.obj []) with
                    | .obj _ =>
                        (match env with
                         | .ok _result =>
                             [⟨"in_progress", 80, none⟩, ⟨"completed", 100, none⟩]
                         | .exn m => [⟨"failed", 0, some m⟩])
                    | v => [⟨"failed", 0, some (noAttrMsg (pyTypeName v) "get")⟩]
                  else
                    [⟨"failed", 0,
                      some ("Неподдерживаемая Git-операция: " ++ s.toLower)⟩])
             | v => [⟨"failed", 0, some (noAttrMsg (pyTypeName v) "lower")⟩])
        | v => [⟨"failed", 0, some (noAttrMsg (pyTypeName v) "get")⟩])
  | some v => .error (noAttrMsg (pyTypeName v) "get")

/-- Python `==` between an arbitrary value and a string literal (used by the
`elif` chain on `task["type"]`): true exactly for the equal string. -/
def jsonEqStr (v : Json) (s : String) : Bool :=
  match v with
  | .str t => t = s
  | _ => false

/-- The `elif` chain of `_process_queue` dispatching on `task["type"]`: an
unknown type never invokes a handler and reports `failed` 0 with the message
`"Неизвестный тип задачи: " + str(type)`. -/
def dispatchHandler (task : TaskDict) (ttype : Json) (env : CallResult) :
    Except String (List Report) :=
  if jsonEqStr ttype "code_generation" then handleCodeGenerationTask task env
  else if jsonEqStr ttype "git_operation" then handleGitOperationTask task env
  else if jsonEqStr ttype "code_analysis" then handleCodeAnalysisTask task env
  else .ok [⟨"failed", 0, some ("Неизвестный тип задачи: " ++ pyStr ttype)⟩]

/-- The inner `try/except` of `_process_queue` around the dispatch: an
exception escaping a handler is caught and reported as `failed` 0 with
`str(e)`. -/
def resolveDispatch : Except String (List Report) → List Report
  | .ok rs => rs
  | .error m => [⟨"failed", 0, some m⟩]

/-- One iteration body of `_process_queue` for a dequeued task whose `"id"`
and `"type"` keys are present (they are read unguarded first, so a task
missing either raises to the outer loop `except` and produces no report):
report `in_progress` 10, then dispatch by type under the inner
`try/except`. -/
def processTask (task : TaskDict) (ttype : Json) (env : CallResult) :
    List Report :=
  ⟨"in_progress", 10, none⟩ :: resolveDispatch (dispatchHandler task ttype env)

/-- `n` iterations of the `_process_queue` loop: dequeue via `get_task`; on a
dequeued dict with `"id"` and `"type"` present, run the iteration body,
tagging each report with `str(task["id"])` (an idle poll, a non-dict record
or a record missing `"id"`/`"type"` produces no report — the latter raise
into the loop's outer `except`, which only logs). -/
def runLoop (st : RedisState) (env : String → CallResult) :
    Nat → List (String × Report)
  | 0 => []
  | n + 1 =>
      let res := getTask st
      let iter : List (String × Report) :=
        match res.1 with
        | some (.obj task) =>
            match alookup task "id", alookup task "type" with
            | some idv, some ttype =>
                (processTask task ttype (env (pyStr idv))).map
                  (fun r => (pyStr idv, r))
            | _, _ => []
        | _ => []
      iter ++ runLoop res.2 env n

/-- Outcome oracle for the `httpx` PATCH in `_update_task_status`: either a
response (with status code and text) or `str(e)` of a raised network
exception. -/
inductive HttpOutcome where
  | response (code : Nat) (text : String)
  | failure (msg : String)

/-- Observable actions of `_update_task_status`: the PATCH attempt and the
`logger.error` calls. -/
inductive BridgeAction where
  | patchCall (url : String) (body : TaskDict)
  | logError (msg : String)

/-- The JSON body `_update_task_status` sends: always `status` and
`progress`, plus `result` and `error` only when not `None`. -/
def updateStatusBody (status : String) (progress : Int)
    (result : Option Json) (error : Option String) : TaskDict :=
  (("status", Json.str status) :: ("progress", Json.num progress) ::
    (match result with | some r => [("result", r)] | none => []))
  ++ (match error with | some e => [("error", Json.str e)] | none => [])

/-- The `try` body of `_update_task_status`: one PATCH to
`{API_SERVICE_URL}/tasks/{task_id}/status`; a non-200 response is logged; a
network failure raises. -/
def tryPatchStatus (url : String) (body : TaskDict) (outcome : HttpOutcome) :
    Except String (List BridgeAction) :=
  match outcome with
  | .response code text =>
      .ok ([.patchCall url body] ++
        (if code = 200 then []
         else [.logError ("Ошибка при обновлении статуса задачи: " ++ text)]))
  | .failure msg => .error msg

/-- `TaskExecutor._update_task_status`: build the update body, attempt the
single PATCH, and catch any exception, logging it — the call never raises to
its caller and is never retried. -/
def updateTaskStatus (apiUrl taskId status : String) (progress : Int)
    (result : Option Json) (error : Option String) (outcome : HttpOutcome) :
    Except String (List BridgeAction) :=
  let body := updateStatusBody status progress result error
  let url := apiUrl ++ "/tasks/" ++ taskId ++ "/status"
  match tryPatchStatus url body outcome with
  | .ok acts => .ok acts
  | .error m =>
      .ok [.patchCall url body,
           .logError ("Ошибка при отправке обновления статуса задачи: " ++ m)]

/-- Marks the PATCH attempts in a bridge trace. -/
def isPatchCall : BridgeAction → Bool
  | .patchCall _ _ => true
  | .logError _ => false

/-- The task record built by `TaskExecutor.execute` before enqueueing. -/
def mkExecuteTask (taskId taskType : String) (kwargs : TaskDict) : TaskDict :=
  [("id", .str taskId), ("type", .str taskType), ("status", .str "pending"),
   ("progress", .num 0), ("params", .obj kwargs)]

/-- The queue/store effect of `TaskExecutor.execute`: build the record and
add it via `TaskQueue.add_task`.  The subsequent
`_update_task_status("pending", 0)` call only contacts the remote API service
(see `updateTaskStatus`) and does not touch the local store. -/
def executeEnqueue (st : RedisState) (taskId taskType : String)
    (kwargs : TaskDict) : RedisState :=
  (addTask st (mkExecuteTask taskId taskType kwargs)).2

/-- Counts maximal non-whitespace runs in a character list (`inWord` records
whether the previous character belonged to a word). -/
def countWords : List Char → Bool → Nat
  | [], _ => 0
  | c :: rest, inWord =>
      if c.isWhitespace then countWords rest false
      else (if inWord then 0 else 1) + countWords rest true

/-- `len(message.split())` in Python: the number of maximal non-whitespace
runs of the message. -/
def pyWordCount (message : String) : Nat :=
  countWords message.data false

/-- Python `len()` of a JSON value; `none` models the `TypeError` raised on
unsized values. -/
def pyLen : Json → Option Nat
  | .str s => some s.length
  | .arr l => some l.length
  | .obj fs => some fs.length
  | _ => none

/-- The routing condition of `DevAgent._handle_code_generation` (line 182):
`len(message.split()) > 20 or (context and len(context.get("files", [])) > 2)`.
`some b` is the boolean outcome; `none` models a `TypeError` from `len` on an
unsized `"files"` value (which would propagate, short-circuiting excluded by
the first disjunct being true). -/
def codeGenRoutesToQueue (message : String) (context : Option TaskDict) :
    Option Bool :=
  if pyWordCount message > 20 then some true
  else
    match context with
    | none => some false
    | some c =>
        if c.isEmpty then some false
        else
          match pyLen ((alookup c "files").getD (.arr [])) with
          | some n => some (decide (n > 2))
          | none => none

/-- The request categories `DevAgent._classify_request` can produce. -/
inductive RequestKind where
  | code_analysis
  | code_generation
  | error_fixing
  | git_operation
  | general_question

/-- Whether `DevAgent.process_message` enqueues a background task for an
inbound message, per handler: `_handle_code_generation` enqueues exactly when
its threshold condition holds; `_handle_git_operation` enqueues whenever the
operation-plan JSON extraction from the LLM reply succeeded (`planOk`, the
only fallible step before `execute` in its `try`); the code-analysis,
error-fixing and general-question handlers never enqueue.  `none` models an
exception propagating out of the routing condition. -/
def routedToQueue (kind : RequestKind) (message : String)
    (context : Option TaskDict) (planOk : Bool) : Option Bool :=
  match kind with
  | .code_generation => codeGenRoutesToQueue message context
  | .git_operation => some planOk
  | .code_analysis => some false
  | .error_fixing => some false
  | .general_question => some false

/-- Concrete task record used by the FIFO and round-trip witnesses. -/
def sampleTaskA : TaskDict :=
  [("id", .str "a"), ("type", .str "code_generation")]

/-- Second concrete task record used by the FIFO witness. -/
def sampleTaskB : TaskDict :=
  [("id", .str "b"), ("type", .str "git_operation")]

/-- Strict increase of a list of progress values in issue order. -/
def strictlyIncreasing : List Int → Bool
  | [] => true
  | [_] => true
  | a :: b :: rest => decide (a < b) && strictlyIncreasing (b :: rest)

/-- A terminal report: `completed` at progress 100 without error, or `failed`
at progress 0 with an error message. -/
def isTerminalReport (r : Report) : Bool :=
  (r.status == "completed" && r.progress == 100 && r.error.isNone) ||
  (r.status == "failed" && r.progress == 0 && r.error.isSome)

/-- The per-task report-trace shape (claim C3, amended): the trace starts
with the loop's (in_progress, 10) claim report, every report before the last
is a non-terminal `in_progress` report, the non-terminal progress values are
strictly increasing in program order, and the trace ends in exactly one
terminal report — after which no report is issued for this processing, so a
finished task is never moved back to `pending` or `in_progress`. -/
def monotoneTerminalTrace (rs : List Report) : Bool :=
  (rs.head? == some ⟨"in_progress", 10, none⟩) &&
  (match rs.getLast? with
   | some r => isTerminalReport r
   | none => false) &&
  rs.dropLast.all (fun r => r.status == "in_progress") &&
  strictlyIncreasing (rs.dropLast.map Report.progress)

/-! ## Basic lemmas about the store and queue primitives -/

theorem alookup_assocSet_self (l : List (String × Json)) (k : String)
    (v : Json) : alookup (assocSet l k v) k = some v := by
  induction l with
  | nil => simp [alookup, assocSet]
  | cons p rest ih =>
      obtain ⟨k', v'⟩ := p
      by_cases h : k' = k
      · simp [alookup, assocSet, h]
      · simp [alookup, assocSet, h, ih]

theorem alookup_assocSet_ne (l : List (String × Json)) (k k' : String)
    (v : Json) (h : k ≠ k') : alookup (assocSet l k v) k' = alookup l k' := by
  induction l with
  | nil => simp [alookup, assocSet, h]
  | cons p rest ih =>
      obtain ⟨k₀, v₀⟩ := p
      by_cases h0 : k₀ = k
      · simp [alookup, assocSet, h0, h]
      · by_cases h1 : k₀ = k'
        · simp [alookup, assocSet, h0, h1, Ne.symm h]
        · simp [alookup, assocSet, h0, h1, ih]

theorem assocSet_assocSet_same (l : List (String × Json)) (k : String)
    (v : Json) : assocSet (assocSet l k v) k v = assocSet l k v := by
  induction l with
  | nil => simp [assocSet]
  | cons p rest ih =>
      obtain ⟨k₀, v₀⟩ := p
      by_cases h : k₀ = k
      · simp [assocSet, h]
      · simp [assocSet, h, ih]

theorem string_append_left_cancel (a b c : String) (h : a ++ b = a ++ c) :
    b = c := by
  have hd : (a ++ b).data = (a ++ c).data := by rw [h]
  simp only [String.data_append] at hd
  exact String.ext (List.append_cancel_left hd)

theorem taskDataKey_inj (i j : String) (h : i ≠ j) :
    taskDataKey i ≠ taskDataKey j := by
  intro he
  exact h (string_append_left_cancel _ _ _ he)

theorem idKey_of_str (t : TaskDict) (s : String)
    (h : alookup t "id" = some (Json.str s)) : idKey t = s := by
  simp [idKey, h, pyStr]

theorem addTask_str_id (st : RedisState) (t : TaskDict) (s : String)
    (h : alookup t "id" = some (Json.str s)) :
    addTask st t =
      (true, ⟨s :: st.queue, assocSet st.store (taskDataKey s) (.obj t)⟩) := by
  have hne : t ≠ [] := by
    intro he
    rw [he] at h
    simp [alookup] at h
  unfold addTask
  rw [h]
  simp [List.isEmpty_iff, hne, redisEncodable, pyStr]

theorem enqueueAll_cons (st : RedisState) (t : TaskDict) (rest : List TaskDict) :
    enqueueAll st (t :: rest) = enqueueAll (addTask st t).2 rest := rfl

theorem enqueueAll_queue (ts : List TaskDict) (st : RedisState)
    (H : ∀ t ∈ ts, ∃ s, alookup t "id" = some (Json.str s)) :
    (enqueueAll st ts).queue = (ts.map idKey).reverse ++ st.queue := by
  induction ts generalizing st with
  | nil => simp [enqueueAll]
  | cons t rest ih =>
      obtain ⟨s, hs⟩ := H t (by simp)
      rw [enqueueAll_cons, addTask_str_id st t s hs,
        ih _ (fun t' ht' => H t' (by simp [ht']))]
      simp [idKey_of_str t s hs]

theorem enqueueAll_store_ne (ts : List TaskDict) (st : RedisState) (key : String)
    (H : ∀ t ∈ ts, ∃ s, alookup t "id" = some (Json.str s))
    (hk : ∀ t ∈ ts, taskDataKey (idKey t) ≠ key) :
    alookup (enqueueAll st ts).store key = alookup st.store key := by
  induction ts generalizing st with
  | nil => simp [enqueueAll]
  | cons t rest ih =>
      obtain ⟨s, hs⟩ := H t (by simp)
      rw [enqueueAll_cons, addTask_str_id st t s hs,
        ih _ (fun t' ht' => H t' (by simp [ht']))
            (fun t' ht' => hk t' (by simp [ht']))]
      have hks : taskDataKey s ≠ key := by
        have := hk t (by simp)
        rwa [idKey_of_str t s hs] at this
      exact alookup_assocSet_ne _ _ _ _ hks

theorem enqueueAll_store_mem (ts : List TaskDict) (st : RedisState)
    (H : ∀ t ∈ ts, ∃ s, alookup t "id" = some (Json.str s))
    (hnd : (ts.map idKey).Nodup) :
    ∀ t ∈ ts, alookup (enqueueAll st ts).store (taskDataKey (idKey t))
      = some (.obj t) := by
  induction ts generalizing st with
  | nil => simp
  | cons t0 rest ih =>
      intro t ht
      obtain ⟨s, hs⟩ := H t0 (by simp)
      rcases List.mem_cons.1 ht with rfl | hmem
      · rw [enqueueAll_cons, addTask_str_id st t s hs]
        have hnotin : idKey t ∉ rest.map idKey := by
          simp only [List.map_cons, List.nodup_cons] at hnd
          exact hnd.1
        rw [enqueueAll_store_ne rest _ _
            (fun t' ht' => H t' (by simp [ht']))
            (fun t' ht' => by
              intro he
              exact hnotin (by
                rw [← string_append_left_cancel "agent:tasks:data:"
                      (idKey t') (idKey t) he]
                exact List.mem_map_of_mem idKey ht'))]
        rw [idKey_of_str t s hs]
        exact alookup_assocSet_self _ _ _
      · rw [enqueueAll_cons, addTask_str_id st t0 s hs]
        exact ih _ (fun t' ht' => H t' (by simp [ht']))
          (by simp only [List.map_cons, List.nodup_cons] at hnd; exact hnd.2)
          t hmem

theorem dequeueAll_spec (ts : List TaskDict) (st : RedisState)
    (hq : st.queue = (ts.map idKey).reverse)
    (hs : ∀ t ∈ ts, alookup st.store (taskDataKey (idKey t)) = some (.obj t)) :
    (dequeueAll st ts.length).1 = ts.map (fun t => some (.obj t)) := by
  induction ts generalizing st with
  | nil => simp [dequeueAll]
  | cons t rest ih =>
      have hq' : st.queue = (rest.map idKey).reverse ++ [idKey t] := by
        simp [hq]
      have hget : st.queue.getLast? = some (idKey t) := by
        rw [hq']
        exact List.getLast?_concat _
      have hdrop : st.queue.dropLast = (rest.map idKey).reverse := by
        rw [hq']
        exact List.dropLast_concat
      have hlook : alookup st.store (taskDataKey (idKey t)) = some (.obj t) :=
        hs t (by simp)
      have hstep : getTask st =
          (some (.obj t), ⟨(rest.map idKey).reverse, st.store⟩) := by
        unfold getTask
        rw [hget]
        simp only [hlook, hdrop]
      simp only [List.length_cons, dequeueAll, hstep]
      rw [ih ⟨(rest.map idKey).reverse, st.store⟩ rfl
          (fun t' ht' => hs t' (by simp [ht']))]
      simp

/-- C1: a sequence of `add_task` calls for tasks with distinct (string) ids
followed by as many `get_task` calls, starting from an empty queue and with no
other queue operation interleaved, returns exactly the enqueued records in
enqueue order (strict FIFO: `LPUSH` at the head, `BRPOP` from the tail). -/
theorem c1_fifo_order (store₀ : List (String × Json)) (ts : List TaskDict)
    (H : ∀ t ∈ ts, ∃ s, alookup t "id" = some (Json.str s))
    (hnd : (ts.map idKey).Nodup) :
    (dequeueAll (enqueueAll ⟨[], store₀⟩ ts) ts.length).1
      = ts.map (fun t => some (Json.obj t)) := by
  apply dequeueAll_spec
  · rw [enqueueAll_queue ts _ H]
    simp
  · exact fun t ht => enqueueAll_store_mem ts _ H hnd t ht

theorem c1_fifo_order_witness :
    (∀ t ∈ [sampleTaskA, sampleTaskB],
        ∃ s, alookup t "id" = some (Json.str s)) ∧
    (([sampleTaskA, sampleTaskB].map idKey).Nodup) ∧
    (dequeueAll (enqueueAll ⟨[], []⟩ [sampleTaskA, sampleTaskB]) 2).1
      = [some (Json.obj sampleTaskA), some (Json.obj sampleTaskB)] :=
  have h1 : ∀ t ∈ [sampleTaskA, sampleTaskB],
      ∃ s, alookup t "id" = some (Json.str s) := by
    intro t ht
    rcases List.mem_cons.1 ht with rfl | ht
    · exact ⟨"a", rfl⟩
    · rcases List.mem_cons.1 ht with rfl | ht
      · exact ⟨"b", rfl⟩
      · cases ht
  have h2 : ([sampleTaskA, sampleTaskB].map idKey).Nodup := by decide
  ⟨h1, h2, c1_fifo_order [] [sampleTaskA, sampleTaskB] h1 h2⟩

/-- C6: a `get_task` that pops an id whose record is absent from the store
returns `none` (rather than raising) and drops the id: the popped id is not
re-enqueued, the rest of the queue and the store are untouched. -/
theorem c6_missing_record (st : RedisState) (q : List String) (id : String)
    (hq : st.queue = q ++ [id])
    (hmiss : alookup st.store (taskDataKey id) = none) :
    getTask st = (none, ⟨q, st.store⟩) := by
  unfold getTask
  rw [hq, List.getLast?_concat]
  simp only [hq, List.dropLast_concat, hmiss]

theorem c6_missing_record_witness :
    (RedisState.mk ["t1"] []).queue = [] ++ ["t1"] ∧
    alookup (RedisState.mk ["t1"] []).store (taskDataKey "t1") = none ∧
    getTask ⟨["t1"], []⟩ = (none, ⟨[], []⟩) :=
  ⟨rfl, rfl, c6_missing_record ⟨["t1"], []⟩ [] "t1" rfl rfl⟩

/-- C8: `add_task` store writes are idempotent (a second put of the same
record leaves the stored record unchanged) and round-trip
(`get_task_by_id` after a put returns exactly the record that was put,
on the JSON representation). -/
theorem c8_put_idempotent_roundtrip (st : RedisState) (t : TaskDict)
    (s : String) (h : alookup t "id" = some (Json.str s)) :
    ((addTask (addTask st t).2 t).2).store = ((addTask st t).2).store ∧
    getTaskById (addTask st t).2 s = some (Json.obj t) := by
  rw [addTask_str_id st t s h]
  constructor
  · rw [addTask_str_id _ t s h]
    simp [assocSet_assocSet_same]
  · unfold getTaskById
    simp [alookup_assocSet_self]

theorem c8_put_idempotent_roundtrip_witness :
    alookup sampleTaskA "id" = some (Json.str "a") ∧
    ((addTask (addTask ⟨[], []⟩ sampleTaskA).2 sampleTaskA).2).store
        = ((addTask ⟨[], []⟩ sampleTaskA).2).store ∧
    getTaskById (addTask ⟨[], []⟩ sampleTaskA).2 "a"
        = some (Json.obj sampleTaskA) :=
  have h : alookup sampleTaskA "id" = some (Json.str "a") := rfl
  ⟨h, c8_put_idempotent_roundtrip ⟨[], []⟩ sampleTaskA "a" h⟩

/-- C10: an `add_task` call with an empty dict or a dict lacking an `"id"`
key returns `False` and leaves both the store and the FIFO list exactly as
they were (no record written, no id pushed). -/
theorem c10_invalid_task_rejected (st : RedisState) (task : TaskDict)
    (h : task = [] ∨ alookup task "id" = none) :
    addTask st task = (false, st) := by
  unfold addTask
  rcases h with rfl | h
  · simp
  · simp [h]

theorem c10_invalid_task_rejected_witness :
    (([] : TaskDict) = [] ∨ alookup ([] : TaskDict) "id" = none) ∧
    addTask ⟨["x"], [("k", Json.null)]⟩ [] = (false, ⟨["x"], [("k", Json.null)]⟩) :=
  ⟨Or.inl rfl, c10_invalid_task_rejected ⟨["x"], [("k", Json.null)]⟩ [] (Or.inl rfl)⟩

/-- C7 counterexample: the record created by `TaskExecutor.execute` at a
concrete input has no `description`, `result` or `error` key, so it is not a
mapping with keys `id, type, status, progress, params, result, error,
description` as claimed. -/
theorem c7_keys_counterexample :
    (mkExecuteTask "t1" "code_generation" []).map Prod.fst
        = ["id", "type", "status", "progress", "params"] ∧
    alookup (mkExecuteTask "t1" "code_generation" []) "description" = none ∧
    alookup (mkExecuteTask "t1" "code_generation" []) "result" = none ∧
    alookup (mkExecuteTask "t1" "code_generation" []) "error" = none :=
  ⟨rfl, rfl, rfl, rfl⟩

/-- C7 amended: the record created and enqueued by `execute` is a flat
mapping with exactly the keys `id, type, status, progress, params` (no
`result`, `error` or `description` at creation), stored JSON-encoded under
the key `<namespace>:<id>` with namespace `agent:tasks:data`. -/
theorem c7_record_serialization (st : RedisState) (taskId taskType : String)
    (kwargs : TaskDict) :
    (mkExecuteTask taskId taskType kwargs).map Prod.fst
        = ["id", "type", "status", "progress", "params"] ∧
    taskDataKey taskId = "agent:tasks:data" ++ ":" ++ taskId ∧
    alookup (executeEnqueue st taskId taskType kwargs).store (taskDataKey taskId)
        = some (Json.obj (mkExecuteTask taskId taskType kwargs)) := by
  refine ⟨rfl, ?_, ?_⟩
  · have hpre : ("agent:tasks:data:" : String) = "agent:tasks:data" ++ ":" := by
      decide
    unfold taskDataKey
    rw [hpre]
  · unfold executeEnqueue
    have h : alookup (mkExecuteTask taskId taskType kwargs) "id"
        = some (Json.str taskId) := rfl
    rw [addTask_str_id st _ taskId h]
    exact alookup_assocSet_self _ _ _

/-- C5: `_update_task_status` returns without raising for every input and
every outcome of the remote PATCH (200 response, non-200 response, or network
exception), makes exactly one PATCH attempt (no retry), and a network failure
is caught and logged internally. -/
theorem c5_update_status_total (apiUrl taskId status : String) (progress : Int)
    (result : Option Json) (error : Option String) (outcome : HttpOutcome) :
    ∃ acts,
      updateTaskStatus apiUrl taskId status progress result error outcome
        = .ok acts ∧
      (acts.filter isPatchCall).length = 1 ∧
      (∀ m, outcome = .failure m →
        BridgeAction.logError
            ("Ошибка при отправке обновления статуса задачи: " ++ m) ∈ acts) := by
  cases outcome with
  | response code text =>
      refine ⟨_, rfl, ?_, ?_⟩
      · by_cases h : code = 200 <;>
          simp [updateTaskStatus, tryPatchStatus, h, isPatchCall]
      · intro m hm
        cases hm
  | failure msg =>
      refine ⟨_, rfl, ?_, ?_⟩
      · simp [updateTaskStatus, tryPatchStatus, isPatchCall]
      · intro m hm
        cases hm
        simp [updateTaskStatus, tryPatchStatus]

theorem c5_update_status_total_witness :
    ∃ acts,
      updateTaskStatus "http://api" "t1" "failed" 0 none (some "boom")
          (.failure "connect error") = .ok acts ∧
      (acts.filter isPatchCall).length = 1 ∧
      (∀ m, HttpOutcome.failure "connect error" = .failure m →
        BridgeAction.logError
            ("Ошибка при отправке обновления статуса задачи: " ++ m) ∈ acts) :=
  c5_update_status_total "http://api" "t1" "failed" 0 none (some "boom")
    (.failure "connect error")

/-- C4 counterexample: for a dequeued task of the unknown type "frobnicate"
the consumer loop does not issue a single immediate failed report: it issues
the standard (in_progress, 10) claim report first, and only then the failed
report with the descriptive error. -/
theorem c4_unknown_type_counterexample :
    processTask [("id", Json.str "t1"), ("type", Json.str "frobnicate")]
        (Json.str "frobnicate") (.ok .null)
      = [⟨"in_progress", 10, none⟩,
         ⟨"failed", 0, some "Неизвестный тип задачи: frobnicate"⟩] ∧
    processTask [("id", Json.str "t1"), ("type", Json.str "frobnicate")]
        (Json.str "frobnicate") (.ok .null)
      ≠ [⟨"failed", 0, some "Неизвестный тип задачи: frobnicate"⟩] := by
  have e : processTask [("id", Json.str "t1"), ("type", Json.str "frobnicate")]
      (Json.str "frobnicate") (.ok .null)
    = [⟨"in_progress", 10, none⟩,
       ⟨"failed", 0, some "Неизвестный тип задачи: frobnicate"⟩] := rfl
  refine ⟨e, ?_⟩
  rw [e]
  intro h
  have := congrArg List.length h
  simp at this

/-- C4 amended: for every dequeued task whose type is an unknown string `s`,
the loop issues the standard (in_progress, 10) claim report and then a single
failed report with progress 0 and error `"Неизвестный тип задачи: " ++ s`,
and invokes no handler — the trace is independent of the handler call
oracle. -/
theorem c4_unknown_type (task : TaskDict) (s : String) (env : CallResult)
    (h1 : s ≠ "code_generation") (h2 : s ≠ "git_operation")
    (h3 : s ≠ "code_analysis") :
    processTask task (Json.str s) env
      = [⟨"in_progress", 10, none⟩,
         ⟨"failed", 0, some ("Неизвестный тип задачи: " ++ s)⟩] := by
  unfold processTask dispatchHandler
  simp [jsonEqStr, h1, h2, h3, resolveDispatch, pyStr]

theorem c4_unknown_type_witness :
    ("frobnicate" ≠ "code_generation") ∧
    ("frobnicate" ≠ "git_operation") ∧
    ("frobnicate" ≠ "code_analysis") ∧
    processTask [("id", Json.str "t2"), ("type", Json.str "frobnicate")]
        (Json.str "frobnicate") (.exn "unused")
      = [⟨"in_progress", 10, none⟩,
         ⟨"failed", 0, some ("Неизвестный тип задачи: " ++ "frobnicate")⟩] :=
  ⟨by decide, by decide, by decide,
   c4_unknown_type [("id", Json.str "t2"), ("type", Json.str "frobnicate")]
     "frobnicate" (.exn "unused") (by decide) (by decide) (by decide)⟩

/-- C3 counterexample: for a code-generation task whose Claude call raises,
the issued progress values are 10, 30, 0 — not strictly increasing — so the
claim that all reports of one task have strictly increasing progress fails. -/
theorem c3_progress_counterexample :
    processTask (mkExecuteTask "t1" "code_generation" [])
        (Json.str "code_generation") (.exn "boom")
      = [⟨"in_progress", 10, none⟩, ⟨"in_progress", 30, none⟩,
         ⟨"failed", 0, some "boom"⟩] ∧
    strictlyIncreasing
      ((processTask (mkExecuteTask "t1" "code_generation" [])
          (Json.str "code_generation") (.exn "boom")).map Report.progress)
      = false :=
  ⟨rfl, rfl⟩

theorem trace_cg (task : TaskDict) (env : CallResult) :
    monotoneTerminalTrace
      (⟨"in_progress", 10, none⟩ ::
        resolveDispatch (handleCodeGenerationTask task env)) = true := by
  unfold handleCodeGenerationTask
  cases h : alookup task "params" with
  | none => rfl
  | some v =>
      cases v with
      | obj params => cases env <;> rfl
      | null => rfl
      | bool b => rfl
      | num n => rfl
      | str s => rfl
      | arr xs => rfl

theorem trace_ca (task : TaskDict) (env : CallResult) :
    monotoneTerminalTrace
      (⟨"in_progress", 10, none⟩ ::
        resolveDispatch (handleCodeAnalysisTask task env)) = true := by
  unfold handleCodeAnalysisTask
  cases h : alookup task "params" with
  | none => rfl
  | some v =>
      cases v with
      | obj params => cases env <;> rfl
      | null => rfl
      | bool b => rfl
      | num n => rfl
      | str s => rfl
      | arr xs => rfl

theorem trace_git (task : TaskDict) (env : CallResult) :
    monotoneTerminalTrace
      (⟨"in_progress", 10, none⟩ ::
        resolveDispatch (handleGitOperationTask task env)) = true := by
  unfold handleGitOperationTask
  cases h : alookup task "params" with
  | none => rfl
  | some v =>
      cases v with
      | null => rfl
      | bool b => rfl
      | num n => rfl
      | str s => rfl
      | arr xs => rfl
      | obj params =>
          dsimp only
          cases hplan : (alookup params "operation_plan").getD (.obj []) with
          | null => rfl
          | bool b => rfl
          | num n => rfl
          | str s => rfl
          | arr xs => rfl
          | obj plan =>
              dsimp only
              cases hop : (alookup plan "operation_type").getD (.str "") with
              | null => rfl
              | bool b => rfl
              | num n => rfl
              | arr xs => rfl
              | obj fs => rfl
              | str s =>
                  dsimp only
                  by_cases hmem : s.toLower ∈ knownGitOps
                  · rw [if_pos hmem]
                    cases hparams : (alookup plan "parameters").getD (.obj []) with
                    | obj ps =>
                        dsimp only
                        cases env <;> rfl
                    | null => rfl
                    | bool b => rfl
                    | num n => rfl
                    | str s' => rfl
                    | arr xs => rfl
                  · rw [if_neg hmem]
                    rfl

/-- C3 amended: for every dequeued task (any record, any type value, any
handler-call outcome) the per-task report trace starts with the
(in_progress, 10) claim report, its non-terminal reports are all
`in_progress` with strictly increasing progress values in program order, and
it ends in exactly one terminal report (`completed` 100 or `failed` 0), after
which no further report is issued — so a task never returns to `pending` or
`in_progress` once terminal.  (The original claim fails only in that the
terminal `failed` report resets progress to 0, below the preceding
checkpoints.) -/
theorem c3_trace_wellformed (task : TaskDict) (ttype : Json)
    (env : CallResult) :
    monotoneTerminalTrace (processTask task ttype env) = true := by
  unfold processTask dispatchHandler
  cases h1 : jsonEqStr ttype "code_generation" with
  | true =>
      rw [if_pos rfl]
      exact trace_cg task env
  | false =>
      rw [if_neg Bool.false_ne_true]
      cases h2 : jsonEqStr ttype "git_operation" with
      | true =>
          rw [if_pos rfl]
          exact trace_git task env
      | false =>
          rw [if_neg Bool.false_ne_true]
          cases h3 : jsonEqStr ttype "code_analysis" with
          | true =>
              rw [if_pos rfl]
              exact trace_ca task env
          | false =>
              rw [if_neg Bool.false_ne_true]
              rfl

theorem getTask_found (st : RedisState) (q : List String) (id : String)
    (t : Json) (hq : st.queue = q ++ [id])
    (hfound : alookup st.store (taskDataKey id) = some t) :
    getTask st = (some t, ⟨q, st.store⟩) := by
  unfold getTask
  rw [hq, List.getLast?_concat]
  simp only [hq, List.dropLast_concat, hfound]

theorem processTask_cg_exn (task : TaskDict) (kw : TaskDict) (msg : String)
    (hp : alookup task "params" = some (.obj kw)) :
    processTask task (Json.str "code_generation") (.exn msg)
      = [⟨"in_progress", 10, none⟩, ⟨"in_progress", 30, none⟩,
         ⟨"failed", 0, some msg⟩] := by
  unfold processTask dispatchHandler handleCodeGenerationTask
  rw [hp]
  rfl

theorem processTask_cg_ok (task : TaskDict) (kw : TaskDict) (v : Json)
    (hp : alookup task "params" = some (.obj kw)) :
    processTask task (Json.str "code_generation") (.ok v)
      = [⟨"in_progress", 10, none⟩, ⟨"in_progress", 30, none⟩,
         ⟨"in_progress", 70, none⟩, ⟨"completed", 100, none⟩] := by
  unfold processTask dispatchHandler handleCodeGenerationTask
  rw [hp]
  rfl

/-- C2: when the handler of an earlier-enqueued code-generation task A raises
(`str(e) = msg`), the loop reports exactly `failed`, progress 0, error `msg`
for A after its checkpoints, then proceeds: the later-enqueued task B is still
dequeued and processed to completion in the same run — A's failure never
prevents B's processing. -/
theorem c2_failure_isolation (store₀ : List (String × Json))
    (idA idB msg : String) (v : Json) (kwargsA kwargsB : TaskDict)
    (env : String → CallResult) (hne : idA ≠ idB)
    (hA : env idA = .exn msg) (hB : env idB = .ok v) :
    runLoop (enqueueAll ⟨[], store₀⟩
        [mkExecuteTask idA "code_generation" kwargsA,
         mkExecuteTask idB "code_generation" kwargsB]) env 2
      = [(idA, ⟨"in_progress", 10, none⟩), (idA, ⟨"in_progress", 30, none⟩),
         (idA, ⟨"failed", 0, some msg⟩),
         (idB, ⟨"in_progress", 10, none⟩), (idB, ⟨"in_progress", 30, none⟩),
         (idB, ⟨"in_progress", 70, none⟩), (idB, ⟨"completed", 100, none⟩)] := by
  have hAid : alookup (mkExecuteTask idA "code_generation" kwargsA) "id"
      = some (.str idA) := rfl
  have hBid : alookup (mkExecuteTask idB "code_generation" kwargsB) "id"
      = some (.str idB) := rfl
  have hAty : alookup (mkExecuteTask idA "code_generation" kwargsA) "type"
      = some (.str "code_generation") := rfl
  have hBty : alookup (mkExecuteTask idB "code_generation" kwargsB) "type"
      = some (.str "code_generation") := rfl
  have hApa : alookup (mkExecuteTask idA "code_generation" kwargsA) "params"
      = some (.obj kwargsA) := rfl
  have hBpa : alookup (mkExecuteTask idB "code_generation" kwargsB) "params"
      = some (.obj kwargsB) := rfl
  have hkeyne : taskDataKey idB ≠ taskDataKey idA :=
    taskDataKey_inj _ _ (Ne.symm hne)
  have henq : enqueueAll ⟨[], store₀⟩
      [mkExecuteTask idA "code_generation" kwargsA,
       mkExecuteTask idB "code_generation" kwargsB]
      = ⟨[idB, idA],
         assocSet (assocSet store₀ (taskDataKey idA)
             (.obj (mkExecuteTask idA "code_generation" kwargsA)))
           (taskDataKey idB)
           (.obj (mkExecuteTask idB "code_generation" kwargsB))⟩ := by
    simp only [enqueueAll, List.foldl_cons, List.foldl_nil,
      addTask_str_id _ _ idA hAid, addTask_str_id _ _ idB hBid]
  have hfound1 : alookup (assocSet (assocSet store₀ (taskDataKey idA)
        (.obj (mkExecuteTask idA "code_generation" kwargsA)))
      (taskDataKey idB)
      (.obj (mkExecuteTask idB "code_generation" kwargsB))) (taskDataKey idA)
      = some (.obj (mkExecuteTask idA "code_generation" kwargsA)) := by
    rw [alookup_assocSet_ne _ _ _ _ hkeyne]
    exact alookup_assocSet_self _ _ _
  have hfound2 : alookup (assocSet (assocSet store₀ (taskDataKey idA)
        (.obj (mkExecuteTask idA "code_generation" kwargsA)))
      (taskDataKey idB)
      (.obj (mkExecuteTask idB "code_generation" kwargsB))) (taskDataKey idB)
      = some (.obj (mkExecuteTask idB "code_generation" kwargsB)) :=
    alookup_assocSet_self _ _ _
  have hget1 := getTask_found
    (RedisState.mk [idB, idA]
      (assocSet (assocSet store₀ (taskDataKey idA)
          (.obj (mkExecuteTask idA "code_generation" kwargsA)))
        (taskDataKey idB)
        (.obj (mkExecuteTask idB "code_generation" kwargsB))))
    [idB] idA (.obj (mkExecuteTask idA "code_generation" kwargsA)) rfl hfound1
  have hget2 := getTask_found
    (RedisState.mk [idB]
      (assocSet (assocSet store₀ (taskDataKey idA)
          (.obj (mkExecuteTask idA "code_generation" kwargsA)))
        (taskDataKey idB)
        (.obj (mkExecuteTask idB "code_generation" kwargsB))))
    [] idB (.obj (mkExecuteTask idB "code_generation" kwargsB)) rfl hfound2
  rw [henq, show (2 : Nat) = 0 + 1 + 1 from rfl]
  simp only [runLoop, hget1, hget2, hAid, hBid, hAty, hBty, pyStr, hA, hB,
    processTask_cg_exn _ _ msg hApa, processTask_cg_ok _ _ v hBpa,
    List.map_cons, List.map_nil, List.append_nil, List.nil_append,
    List.cons_append]

theorem c2_failure_isolation_witness :
    (("a" : String) ≠ "b") ∧
    ((fun s => if s = "a" then CallResult.exn "boom" else CallResult.ok Json.null)
        "a" = CallResult.exn "boom") ∧
    ((fun s => if s = "a" then CallResult.exn "boom" else CallResult.ok Json.null)
        "b" = CallResult.ok Json.null) ∧
    runLoop (enqueueAll ⟨[], []⟩
        [mkExecuteTask "a" "code_generation" [],
         mkExecuteTask "b" "code_generation" []])
      (fun s => if s = "a" then CallResult.exn "boom" else CallResult.ok Json.null)
      2
      = [("a", ⟨"in_progress", 10, none⟩), ("a", ⟨"in_progress", 30, none⟩),
         ("a", ⟨"failed", 0, some "boom"⟩),
         ("b", ⟨"in_progress", 10, none⟩), ("b", ⟨"in_progress", 30, none⟩),
         ("b", ⟨"in_progress", 70, none⟩), ("b", ⟨"completed", 100, none⟩)] :=
  ⟨by decide, rfl, rfl,
   c2_failure_isolation [] "a" "b" "boom" Json.null [] []
     (fun s => if s = "a" then CallResult.exn "boom" else CallResult.ok Json.null)
     (by decide) rfl rfl⟩

/-- C9 counterexample: a one-word git-operation message with no attached
context still causes a task to be enqueued (`_handle_git_operation` enqueues
whenever the plan extraction succeeds), although the word count (1) is not
above 20 and there are no context files — so "a task is enqueued exactly when
word count or context size exceeds the threshold" is false. -/
theorem c9_threshold_counterexample :
    routedToQueue RequestKind.git_operation "push" none true = some true ∧
    pyWordCount "push" = 1 ∧
    codeGenRoutesToQueue "push" none = some false :=
  ⟨rfl, by decide, by decide⟩

/-- C9 amended: the >20-words / >2-context-files threshold governs only
code-generation requests (for those, with a nonempty context dict carrying a
well-formed files list, work is enqueued exactly when the message has more
than 20 words or more than 2 files are attached); git-operation requests
enqueue a task whenever the plan extraction succeeds, regardless of message
size; code-analysis, error-fixing and general-question requests never
enqueue. -/
theorem c9_routing (message : String) (context : Option TaskDict)
    (planOk : Bool) (c : TaskDict) (files : List Json)
    (hc : alookup c "files" = some (.arr files)) (hne : c ≠ []) :
    routedToQueue RequestKind.git_operation message context planOk
        = some planOk ∧
    routedToQueue RequestKind.code_analysis message context planOk
        = some false ∧
    routedToQueue RequestKind.error_fixing message context planOk
        = some false ∧
    routedToQueue RequestKind.general_question message context planOk
        = some false ∧
    routedToQueue RequestKind.code_generation message context planOk
        = codeGenRoutesToQueue message context ∧
    codeGenRoutesToQueue message (some c)
        = some (decide (pyWordCount message > 20)
                  || decide (files.length > 2)) := by
  refine ⟨rfl, rfl, rfl, rfl, rfl, ?_⟩
  unfold codeGenRoutesToQueue
  have hemp : c.isEmpty = false := by
    cases c with
    | nil => cases hne rfl
    | cons p rest => rfl
  by_cases hw : pyWordCount message > 20
  · rw [if_pos hw]
    simp [hw]
  · rw [if_neg hw]
    simp only [hemp, Bool.false_eq_true, if_false, hc, Option.getD_some, pyLen]
    simp [hw]

theorem c9_routing_witness :
    alookup [("files", Json.arr [])] "files" = some (Json.arr []) ∧
    ([("files", Json.arr [])] : TaskDict) ≠ [] ∧
    (routedToQueue RequestKind.git_operation "hi"
        (some [("files", Json.arr [])]) true = some true ∧
     routedToQueue RequestKind.code_analysis "hi"
        (some [("files", Json.arr [])]) true = some false ∧
     routedToQueue RequestKind.error_fixing "hi"
        (some [("files", Json.arr [])]) true = some false ∧
     routedToQueue RequestKind.general_question "hi"
        (some [("files", Json.arr [])]) true = some false ∧
     routedToQueue RequestKind.code_generation "hi"
        (some [("files", Json.arr [])]) true
        = codeGenRoutesToQueue "hi" (some [("files", Json.arr [])]) ∧
     codeGenRoutesToQueue "hi" (some [("files", Json.arr [])])
        = some (decide (pyWordCount "hi" > 20)
                  || decide (([] : List Json).length > 2))) :=
  ⟨rfl, List.cons_ne_nil _ _,
   c9_routing "hi" (some [("files", Json.arr [])]) true
     [("files", Json.arr [])] [] rfl (List.cons_ne_nil _ _)⟩
